import Mathlib

/-
Verification of the term-validation rules of sphinx_term_validator.py.

The source file is a docutils/Sphinx extension.  Its core logic is a set of
stateless text validators over the flattened text of a document node, a
tab-separated dictionary loader for the forbidden-word rule, and a location
resolver for diagnostics.  Strings are embedded as `List Char`; each Python
function of the source is translated into an executable Lean definition of
the same name.  External collaborators (docutils `column_width`,
`unicodedata.category` / `unicodedata.normalize`, the `re` module applied to
the fixed patterns of the source, and the file system) are modelled by
executable functions over the character repertoire this extension targets;
each such model carries a doc comment naming what it models.
-/

/-- Model of docutils `column_width` per character: East-Asian Wide and
Fullwidth characters occupy two display columns, every other character
(ASCII, half-width katakana, ...) occupies one. -/
def charWidth (c : Char) : Nat :=
  let n := c.toNat
  if (0x1100 ≤ n ∧ n ≤ 0x115F) ∨ (0x2E80 ≤ n ∧ n ≤ 0x303E) ∨
     (0x3041 ≤ n ∧ n ≤ 0x33FF) ∨ (0x3400 ≤ n ∧ n ≤ 0x4DBF) ∨
     (0x4E00 ≤ n ∧ n ≤ 0x9FFF) ∨ (0xA000 ≤ n ∧ n ≤ 0xA4CF) ∨
     (0xAC00 ≤ n ∧ n ≤ 0xD7A3) ∨ (0xF900 ≤ n ∧ n ≤ 0xFAFF) ∨
     (0xFE30 ≤ n ∧ n ≤ 0xFE4F) ∨ (0xFF00 ≤ n ∧ n ≤ 0xFF60) ∨
     (0xFFE0 ≤ n ∧ n ≤ 0xFFE6) then 2 else 1

/-- Model of docutils `column_width` on a whole string: the sum of the
per-character display widths. -/
def columnWidth : List Char → Nat
  | [] => 0
  | c :: rest => charWidth c + columnWidth rest

/-- Model of `unicodedata.category(c)[0]` (the first letter of the Unicode
general category) on the repertoire this extension manipulates: ASCII,
CJK punctuation, hiragana, katakana, CJK ideographs and the halfwidth and
fullwidth forms block.  Distinctions among the non-Letter, non-Number
categories are irrelevant to the source (only membership of `L`/`N` is ever
tested), so ASCII and fullwidth symbols are lumped with punctuation. -/
def category0 (c : Char) : Char :=
  let n := c.toNat
  if n = 0x20 then 'Z'
  else if n < 0x20 ∨ n = 0x7F then 'C'
  else if 0x30 ≤ n ∧ n ≤ 0x39 then 'N'
  else if 0x41 ≤ n ∧ n ≤ 0x5A then 'L'
  else if 0x61 ≤ n ∧ n ≤ 0x7A then 'L'
  else if n ≤ 0x7E then 'P'
  else if n = 0x3000 then 'Z'
  else if 0x3001 ≤ n ∧ n ≤ 0x303F then 'P'
  else if 0x3041 ≤ n ∧ n ≤ 0x3096 then 'L'
  else if 0x3099 ≤ n ∧ n ≤ 0x309A then 'M'
  else if 0x309B ≤ n ∧ n ≤ 0x309C then 'S'
  else if 0x309D ≤ n ∧ n ≤ 0x309F then 'L'
  else if n = 0x30A0 ∨ n = 0x30FB then 'P'
  else if 0x30A1 ≤ n ∧ n ≤ 0x30FF then 'L'
  else if 0x4E00 ≤ n ∧ n ≤ 0x9FFF then 'L'
  else if 0xFF01 ≤ n ∧ n ≤ 0xFF0F then 'P'
  else if 0xFF10 ≤ n ∧ n ≤ 0xFF19 then 'N'
  else if 0xFF1A ≤ n ∧ n ≤ 0xFF20 then 'P'
  else if 0xFF21 ≤ n ∧ n ≤ 0xFF3A then 'L'
  else if 0xFF3B ≤ n ∧ n ≤ 0xFF40 then 'P'
  else if 0xFF41 ≤ n ∧ n ≤ 0xFF5A then 'L'
  else if 0xFF5B ≤ n ∧ n ≤ 0xFF65 then 'P'
  else if 0xFF66 ≤ n ∧ n ≤ 0xFF9F then 'L'
  else if 0xFFE0 ≤ n ∧ n ≤ 0xFFE6 then 'S'
  else 'C'

/-- Model of `unicodedata.normalize('NFKC', c)` for a single character, on
the characters the validated texts contain: half-width katakana fold to
their full-width forms and fullwidth Latin letters and digits fold to
ASCII; every character outside the modelled compatibility variants is an
NFKC fixed point and maps to itself. -/
def nfkcChar (c : Char) : List Char :=
  if c = 'ｱ' then ['ア']
  else if c = 'ｲ' then ['イ']
  else if c = 'ｳ' then ['ウ']
  else if c = 'ｴ' then ['エ']
  else if c = 'ｵ' then ['オ']
  else if c = 'Ａ' then ['A']
  else if c = '１' then ['1']
  else [c]

/-- Per-character step of `validate_half_width_katakana`: NFKC-normalize a
character whose Unicode general category starts with `L` or `N`, pass any
other character through unchanged (source lines 133-137). -/
def gatedStep (c : Char) : List Char :=
  if category0 c = 'L' ∨ category0 c = 'N' then nfkcChar c else [c]

/-- The category-gated NFKC transform of `validate_half_width_katakana`:
`''.join(chars)` over the per-character steps (source lines 132-139). -/
def gatedNFKC : List Char → List Char
  | [] => []
  | c :: rest => gatedStep c ++ gatedNFKC rest

/-- Model of Python `str.isspace` characters stripped by `str.strip`. -/
def isSpaceChar (c : Char) : Bool :=
  decide (c = ' ' ∨ c = '\t' ∨ c = '\n' ∨ c = '\x0d' ∨ c = '\x0b' ∨ c = '\x0c')

/-- Model of Python `str.strip`: drop whitespace from both ends. -/
def pyStrip (s : List Char) : List Char :=
  ((s.dropWhile isSpaceChar).reverse.dropWhile isSpaceChar).reverse

/-- Model of Python `str.lower` restricted to ASCII letters; the source
applies it only to a run of `[A-Za-z]` characters, where this is exact. -/
def lowerAscii (s : List Char) : List Char :=
  s.map (fun c => if 'A' ≤ c ∧ c ≤ 'Z' then Char.ofNat (c.toNat + 32) else c)

/-- Model of Python `str.find` (first index of an occurrence of `pat`,
`none` for Python's `-1`); an empty pattern is found at index 0. -/
def firstIndexOf : List Char → List Char → Option Nat
  | hay, pat =>
    if pat.isPrefixOf hay then some 0
    else
      match hay with
      | [] => none
      | _ :: t => (firstIndexOf t pat).map (· + 1)

/-- Model of Python `str.splitlines` (newline-only repertoire): split on
each newline, without keeping the line ends and without a trailing empty
line for a trailing newline. -/
def splitlines (s : List Char) : List (List Char) :=
  if s = [] then []
  else
    let parts := s.splitOn '\n'
    if s.getLast? = some '\n' then parts.dropLast else parts

/-- Model of iterating over an open Python text file: the lines of the file
content, each keeping its trailing newline; a final fragment without a
newline is yielded as-is and an empty final fragment is not yielded. -/
def fileLines (s : List Char) : List (List Char) :=
  let parts := s.splitOn '\n'
  let last := parts.getLastD []
  parts.dropLast.map (fun p => p ++ ['\n']) ++ (if last = [] then [] else [last])

/-- Fuel-driven worker for `replaceAll`; the fuel is always instantiated
with the length of the scanned string, which the scan never exhausts. -/
def replaceAllGo : Nat → List Char → List Char → List Char → List Char
  | 0, s, _, _ => s
  | _ + 1, [], _, _ => []
  | fuel + 1, c :: rest, pat, rep =>
    if pat ≠ [] ∧ pat.isPrefixOf (c :: rest) then
      rep ++ replaceAllGo fuel ((c :: rest).drop pat.length) pat rep
    else
      c :: replaceAllGo fuel rest pat rep

/-- Model of Python `str.replace` with a non-empty pattern: replace every
non-overlapping occurrence of `pat` by `rep`, scanning left to right. -/
def replaceAll (s pat rep : List Char) : List Char :=
  replaceAllGo s.length s pat rep

/-- Character class `[ぁ-んァ-ヶー一-龠]` of the compiled pattern
`find_question_exclamation` (source line 33). -/
def isWideScript (c : Char) : Bool :=
  let n := c.toNat
  decide ((0x3041 ≤ n ∧ n ≤ 0x3093) ∨ (0x30A1 ≤ n ∧ n ≤ 0x30F6) ∨
          n = 0x30FC ∨ (0x4E00 ≤ n ∧ n ≤ 0x9FA0))

/-- Character class `[!?]` of `find_question_exclamation`. -/
def isQEChar (c : Char) : Bool :=
  decide (c = '!' ∨ c = '?')

/-- One attempted match of `([ぁ-んァ-ヶー一-龠]+)([!?]+)` at the start of
`s`: a maximal non-empty run of wide-script characters followed by a
maximal non-empty run of `!`/`?` marks; returns the two captured groups and
the remainder after the match. -/
def matchQE (s : List Char) : Option ((List Char × List Char) × List Char) :=
  let base := s.takeWhile isWideScript
  let r1 := s.dropWhile isWideScript
  let mark := r1.takeWhile isQEChar
  let r2 := r1.dropWhile isQEChar
  if base = [] ∨ mark = [] then none else some ((base, mark), r2)

/-- Fuel-driven worker for `find_question_exclamation`: Python
`re.findall` semantics — try a match at each position, advance one
character on failure, continue after the match on success. -/
def findQEGo : Nat → List Char → List (List Char × List Char)
  | 0, _ => []
  | _ + 1, [] => []
  | fuel + 1, c :: rest =>
    match matchQE (c :: rest) with
    | none => findQEGo fuel rest
    | some (pr, r2) => pr :: findQEGo fuel r2

/-- Model of `re.compile(r'([ぁ-んァ-ヶー一-龠]+)([!?]+)').findall`
(source line 33). -/
def find_question_exclamation (s : List Char) : List (List Char × List Char) :=
  findQEGo s.length s

/-- One attempted match of `\(([^)]*)\)` at the start of `s`: an opening
parenthesis, the run of characters up to the first closing parenthesis
(captured), and that closing parenthesis; returns the captured group and
the remainder after the match. -/
def matchParen (s : List Char) : Option (List Char × List Char) :=
  match s with
  | '(' :: r =>
    match r.dropWhile (fun c => decide (c ≠ ')')) with
    | ')' :: r2 => some (r.takeWhile (fun c => decide (c ≠ ')')), r2)
    | _ => none
  | _ => none

/-- Fuel-driven worker for `find_parethesis` with `re.findall` scanning
semantics. -/
def findParenGo : Nat → List Char → List (List Char)
  | 0, _ => []
  | _ + 1, [] => []
  | fuel + 1, c :: rest =>
    match matchParen (c :: rest) with
    | none => findParenGo fuel rest
    | some (inner, r2) => inner :: findParenGo fuel r2

/-- Model of `re.compile(r'\(([^)]*)\)').findall` (source line 32, the
source's own spelling of the name is kept). -/
def find_parethesis (s : List Char) : List (List Char) :=
  findParenGo s.length s

/-- Model of the Unicode-aware Python `\d` class (decimal digits) on the
modelled repertoire: ASCII and fullwidth digits. -/
def isDigitCh (c : Char) : Bool :=
  let n := c.toNat
  decide ((0x30 ≤ n ∧ n ≤ 0x39) ∨ (0xFF10 ≤ n ∧ n ≤ 0xFF19))

/-- Model of the Unicode-aware Python `\w` class on the modelled
repertoire: underscore plus every character whose general category starts
with `L` or `N`. -/
def isWordChar (c : Char) : Bool :=
  decide (c = '_' ∨ category0 c = 'L' ∨ category0 c = 'N')

/-- Character class `[^\w.%=()+-]` of `find_numofunit` (source line 40). -/
def isDelim (c : Char) : Bool :=
  !(isWordChar c || c == '.' || c == '%' || c == '=' || c == '(' ||
    c == ')' || c == '+' || c == '-')

/-- Character class `[A-Za-z]` of `find_numofunit`. -/
def isAsciiAlpha (c : Char) : Bool :=
  decide (('A' ≤ c ∧ c ≤ 'Z') ∨ ('a' ≤ c ∧ c ≤ 'z'))

/-- One attempted match of `([^\w.%=()+-])(\d+)([A-Za-z]+)[^\d]` at the
start of `s`, with the backtracking the Python engine performs: the
greedy letter run gives one letter back to the trailing `[^\d]` when no
suitable character follows it.  Returns the three captured groups and the
remainder after the match. -/
def matchNum (s : List Char) : Option ((List Char × List Char × List Char) × List Char) :=
  match s with
  | [] => none
  | d :: r =>
    if isDelim d then
      let digits := r.takeWhile isDigitCh
      let r1 := r.dropWhile isDigitCh
      let letters := r1.takeWhile isAsciiAlpha
      let r2 := r1.dropWhile isAsciiAlpha
      if digits = [] ∨ letters = [] then none
      else
        match r2 with
        | x :: r3 =>
          if isDigitCh x then
            if 2 ≤ letters.length then some (([d], digits, letters.dropLast), r2) else none
          else
            some (([d], digits, letters), r3)
        | [] =>
          if 2 ≤ letters.length then some (([d], digits, letters.dropLast), r2) else none
    else none

/-- Fuel-driven worker for `find_numofunit` with `re.findall` scanning
semantics. -/
def findNumGo : Nat → List Char → List (List Char × List Char × List Char)
  | 0, _ => []
  | _ + 1, [] => []
  | fuel + 1, c :: rest =>
    match matchNum (c :: rest) with
    | none => findNumGo fuel rest
    | some (groups, r2) => groups :: findNumGo fuel r2

/-- Model of `re.compile(r'([^\w.%=()+-])(\d+)([A-Za-z]+)[^\d]').findall`
(source line 40). -/
def find_numofunit (s : List Char) : List (List Char × List Char × List Char) :=
  findNumGo s.length s

/-- The `error_type` strings of the source, as an enumeration:
`halfWidthKatakana` for 'Wide ascii, Wide number or Half kana',
`parenthesis` for 'Half parenthesis include Wide string',
`questionExclamation` for 'Half "!", "?" after full-width char',
`punctuationMark` for 'ASCII punctuation mark',
`spaceInNumberOfUnit` for 'Space in number of unit', and
`ngWord` for 'NG word'. -/
inductive ErrType where
  | halfWidthKatakana
  | parenthesis
  | questionExclamation
  | punctuationMark
  | spaceInNumberOfUnit
  | ngWord
deriving DecidableEq

/-- The rule-level content of a `ValidationErrorMessage`: the error type,
the offending text and the suggested text.  The node reference and the
resolved location of the Python class are treated separately by
`set_location`, which never alters these three fields. -/
structure VMsg where
  error_type : ErrType
  target_text : List Char
  suggestion_text : List Char
deriving DecidableEq

/-- Embedding of `validate_half_width_katakana` (source lines 124-147):
apply the category-gated NFKC transform; if the result differs from the
node text, emit one diagnostic covering the whole text. -/
def validate_half_width_katakana (text : List Char) : List VMsg :=
  if text ≠ gatedNFKC text then
    [⟨ErrType.halfWidthKatakana, text, gatedNFKC text⟩]
  else []

/-- The loop body of `validate_parenthesis` (source lines 161-168): for
each captured inner string whose display width differs from its length,
replace every occurrence of `(inner)` in the working text by `（inner）`
and record the working text before and after that replacement. -/
def parenLoop : List (List Char) → List Char → List VMsg
  | [], _ => []
  | term :: rest, text =>
    if columnWidth term ≠ term.length then
      ⟨ErrType.parenthesis, text,
        replaceAll text ('(' :: term ++ [')']) ('（' :: term ++ ['）'])⟩ ::
      parenLoop rest (replaceAll text ('(' :: term ++ [')']) ('（' :: term ++ ['）']))
    else
      parenLoop rest text

/-- Embedding of `validate_parenthesis` (source lines 150-170). -/
def validate_parenthesis (text : List Char) : List VMsg :=
  parenLoop (find_parethesis text) text

/-- The mark-widening of `validate_question_exclamation` (source line 185):
`mark.replace('!', '！').replace('?', '？')` on a run of marks. -/
def widenMarks (mark : List Char) : List Char :=
  (mark.map (fun c => if c = '!' then '！' else c)).map
    (fun c => if c = '?' then '？' else c)

/-- The rewriting loop of `validate_question_exclamation` (source lines
184-186): for every `(base, mark)` pair found in the original text,
replace every occurrence of `base ++ mark` in the working text by
`base ++ widenMarks mark`. -/
def qeLoop : List (List Char × List Char) → List Char → List Char
  | [], text => text
  | (base, mark) :: rest, text =>
    qeLoop rest (replaceAll text (base ++ mark) (base ++ widenMarks mark))

/-- The corrected text computed by `validate_question_exclamation`
(source lines 181-186): the rewriting loop runs only when the display
width of the text differs from its character length. -/
def qeCorrected (text : List Char) : List Char :=
  if columnWidth text ≠ text.length then
    qeLoop (find_question_exclamation text) text
  else text

/-- Embedding of `validate_question_exclamation` (source lines 173-195):
one diagnostic covering the whole text when the corrected text differs
from the original, none otherwise. -/
def validate_question_exclamation (text : List Char) : List VMsg :=
  if qeCorrected text ≠ text then
    [⟨ErrType.questionExclamation, text, qeCorrected text⟩]
  else []

/-- Character class `[^\d,.]` of the dot substitution patterns
(source lines 34-36). -/
def notDigitCommaDot (c : Char) : Bool :=
  !(isDigitCh c || c == ',' || c == '.')

/-- Character class `[^,.]` of the comma substitution patterns
(source lines 37-39). -/
def notCommaDot (c : Char) : Bool :=
  !(c == ',' || c == '.')

/-- Model of `re.compile(r'([^\d,.])\. ').sub(u'\\1。', text)` (source
lines 34 and 214): a qualifying character followed by a period and a
space becomes that character followed by a fullwidth period, the space
being consumed. -/
def sub_dot_space : List Char → List Char
  | a :: '.' :: ' ' :: rest =>
    if notDigitCommaDot a then a :: '。' :: sub_dot_space rest
    else a :: sub_dot_space ('.' :: ' ' :: rest)
  | a :: rest => a :: sub_dot_space rest
  | [] => []

/-- Model of `re.compile(r'([^\d,.])\.\n').sub(u'\\1。\n', text)` (source
lines 35 and 215). -/
def sub_dot_newline : List Char → List Char
  | a :: '.' :: '\n' :: rest =>
    if notDigitCommaDot a then a :: '。' :: '\n' :: sub_dot_newline rest
    else a :: sub_dot_newline ('.' :: '\n' :: rest)
  | a :: rest => a :: sub_dot_newline rest
  | [] => []

/-- Model of `re.compile(r'([^\d,.])\.$').sub(u'\\1。', text)` (source
lines 36 and 216); without `re.M`, `$` matches only at the end of the
string or just before a final newline. -/
def sub_dot_eol : List Char → List Char
  | a :: '.' :: rest =>
    if (rest = [] ∨ rest = ['\n']) ∧ notDigitCommaDot a then a :: '。' :: rest
    else a :: sub_dot_eol ('.' :: rest)
  | a :: rest => a :: sub_dot_eol rest
  | [] => []

/-- Model of `re.compile(r'([^,.]), ').sub(u'\\1、', text)` (source lines
37 and 218). -/
def sub_comma_space : List Char → List Char
  | a :: ',' :: ' ' :: rest =>
    if notCommaDot a then a :: '、' :: sub_comma_space rest
    else a :: sub_comma_space (',' :: ' ' :: rest)
  | a :: rest => a :: sub_comma_space rest
  | [] => []

/-- Model of `re.compile(r'([^,.]),\n').sub(u'\\1、\n', text)` (source
lines 38 and 219). -/
def sub_comma_newline : List Char → List Char
  | a :: ',' :: '\n' :: rest =>
    if notCommaDot a then a :: '、' :: '\n' :: sub_comma_newline rest
    else a :: sub_comma_newline (',' :: '\n' :: rest)
  | a :: rest => a :: sub_comma_newline rest
  | [] => []

/-- Model of `re.compile(r'([^,.]),$').sub(u'\\1、', text)` (source lines
39 and 220). -/
def sub_comma_eol : List Char → List Char
  | a :: ',' :: rest =>
    if (rest = [] ∨ rest = ['\n']) ∧ notCommaDot a then a :: '、' :: rest
    else a :: sub_comma_eol (',' :: rest)
  | a :: rest => a :: sub_comma_eol rest
  | [] => []

/-- The corrected text computed by `validate_punctuation_mark` (source
lines 214-220): the six substitutions in source order, dots before
commas, space then newline then end-of-text. -/
def punctuationCorrected (text : List Char) : List Char :=
  sub_comma_eol (sub_comma_newline (sub_comma_space
    (sub_dot_eol (sub_dot_newline (sub_dot_space text)))))

/-- Embedding of `validate_punctuation_mark` (source lines 198-228):
empty text and pure narrow-width text return no diagnostics; otherwise
one diagnostic covering the whole text when a substitution changed it. -/
def validate_punctuation_mark (text : List Char) : List VMsg :=
  if text = [] then []
  else if columnWidth text = text.length then []
  else if punctuationCorrected text ≠ text then
    [⟨ErrType.punctuationMark, text, punctuationCorrected text⟩]
  else []

/-- The fixed suggestion string of `validate_space_in_number_of_unit`
(source line 249). -/
def numUnitSuggestion : List Char :=
  (r"Number of unit string need space before unit").toList

/-- The loop body of `validate_space_in_number_of_unit` (source lines
245-250): one diagnostic per match whose lower-cased unit token is not
`html`, with target the concatenation of the three captured groups. -/
def numLoop : List (List Char × List Char × List Char) → List VMsg
  | [] => []
  | (a, b, c) :: rest =>
    if lowerAscii c ≠ (r"html").toList then
      ⟨ErrType.spaceInNumberOfUnit, a ++ b ++ c, numUnitSuggestion⟩ :: numLoop rest
    else numLoop rest

/-- Embedding of `validate_space_in_number_of_unit` (source lines
231-252). -/
def validate_space_in_number_of_unit (text : List Char) : List VMsg :=
  if text = [] then [] else numLoop (find_numofunit text)

/-- One entry of the module-level `NG_WORDS` rule set (source lines 313-316):
the compiled pattern's `search` (modelled as a function returning the
matched substring, i.e. `group(0)`, of the first match, or `none`), the
stripped pattern string, and the stripped suggestion string. -/
structure NGWordRule where
  finder : List Char → Option (List Char)
  ng : List Char
  good : List Char

/-- The loop body of `validate_ng_words` (source lines 268-273): one
diagnostic per rule whose finder matches, with target the matched
substring and suggestion the rule's recorded suggestion. -/
def ngLoop : List NGWordRule → List Char → List VMsg
  | [], _ => []
  | rule :: rest, text =>
    match rule.finder text with
    | some found => ⟨ErrType.ngWord, found, rule.good⟩ :: ngLoop rest text
    | none => ngLoop rest text

/-- Embedding of `validate_ng_words` (source lines 255-275); the
module-level `NG_WORDS` list is passed explicitly. -/
def validate_ng_words (rules : List NGWordRule) (text : List Char) : List VMsg :=
  if text = [] then [] else ngLoop rules text

/-- Model of `re.search` for a pattern that is an alternation of literal
strings, as the dictionary patterns of the spec's example are: at each
position from the left, try the alternatives in order; the result is
`group(0)` of the first match.  The capture group the loader wraps around
the pattern does not change `group(0)`. -/
def searchAlt (alts : List (List Char)) : List Char → Option (List Char)
  | [] =>
    match alts.find? (fun a => a.isPrefixOf ([] : List Char)) with
    | some a => some a
    | none => none
  | c :: t =>
    match alts.find? (fun a => a.isPrefixOf (c :: t)) with
    | some a => some a
    | none => searchAlt alts t

/-- Model of `re.compile('(%s)' % pattern).search` for
alternation-of-literal patterns: split the pattern on `|` and search the
alternatives; compilation never fails on such patterns. -/
def compileAlt (pattern : List Char) : Except Unit (List Char → Option (List Char)) :=
  Except.ok (searchAlt (pattern.splitOn '|'))

/-- The errors `load_ng_word_dic` can propagate: a file-access error from
`io.open` on a missing or unreadable path, or an `re.error` from
compiling a dictionary pattern. -/
inductive LoadError where
  | fileAccess
  | regexCompile
deriving DecidableEq

/-- Model of `os.path.join(BASEDIR, 'rule.dic')` (source line 303), with
`BASEDIR` abstracted away. -/
def defaultRuleFile : List Char :=
  (r"rule.dic").toList

/-- Compilation fold of the loader's list comprehension (source lines
313-316): compile each stripped pattern in order, propagating the first
compile error; on success, produce the rule list. -/
def loadRules (compile : List Char → Except Unit (List Char → Option (List Char))) :
    List (List Char × List Char) → Except LoadError (List NGWordRule)
  | [] => Except.ok []
  | (ng, good) :: rest =>
    match compile (pyStrip ng) with
    | Except.error _ => Except.error LoadError.regexCompile
    | Except.ok finder =>
      match loadRules compile rest with
      | Except.error e => Except.error e
      | Except.ok rules => Except.ok (⟨finder, pyStrip ng, pyStrip good⟩ :: rules)

/-- Embedding of `load_ng_word_dic` (source lines 288-316) as a pure
function: `fs` models the file system (`none` for a missing or unreadable
path), `compile` models `re.compile(...).search`.  A line is kept when it
is non-empty, does not start with `#` and contains a tab; kept lines are
split on the first tab into pattern and suggestion. -/
def load_ng_word_dic (fs : List Char → Option (List Char))
    (compile : List Char → Except Unit (List Char → Option (List Char)))
    (ng_word_rule_file : Option (List Char)) : Except LoadError (List NGWordRule) :=
  let rule_file := ng_word_rule_file.getD defaultRuleFile
  match fs rule_file with
  | none => Except.error LoadError.fileAccess
  | some content =>
    loadRules compile ((fileLines content).filterMap (fun line =>
      if line ≠ [] ∧ line.head? ≠ some '#' ∧ '\t' ∈ line then
        some (line.takeWhile (fun c => decide (c ≠ '\t')),
              (line.dropWhile (fun c => decide (c ≠ '\t'))).tail)
      else none))

/-- The value of the module global `NG_WORDS` after a call of
`load_ng_word_dic` that started from the value `old`: the Python
assignment `NG_WORDS = [...]` (source line 313) runs only after the file
has been read and the whole comprehension — every `re.compile` included —
has been evaluated, so a propagating exception leaves the global
untouched. -/
def NG_WORDS_after (old : List NGWordRule) (fs : List Char → Option (List Char))
    (compile : List Char → Except Unit (List Char → Option (List Char)))
    (ng_word_rule_file : Option (List Char)) : List NGWordRule :=
  match load_ng_word_dic fs compile ng_word_rule_file with
  | Except.error _ => old
  | Except.ok rules => rules

/-- A docutils node as `set_location` sees one: its `line` attribute
(`none` for Python `None`), whether it is a `nodes.TextElement`, its
`rawsource`, and its `parent` (`none` for a detached node). -/
inductive PyNode where
  | mk : Option Nat → Bool → List Char → Option PyNode → PyNode

/-- The `line` attribute of a node. -/
def PyNode.line : PyNode → Option Nat
  | .mk l _ _ _ => l

/-- Whether the node is an instance of `nodes.TextElement`. -/
def PyNode.isTextElem : PyNode → Bool
  | .mk _ te _ _ => te

/-- The `rawsource` attribute of a node. -/
def PyNode.rawsource : PyNode → List Char
  | .mk _ _ rs _ => rs

/-- The `parent` attribute of a node. -/
def PyNode.parent : PyNode → Option PyNode
  | .mk _ _ _ p => p

/-- Python truthiness of a `line` attribute: `None` and `0` are falsy. -/
def truthyLine : Option Nat → Bool
  | none => false
  | some n => n != 0

/-- The line lookup `node.line or node.parent.line or
node.parent.parent.line` of `set_location` (source line 71): first truthy
value, else the grandparent's `line` whatever it is; an `AttributeError`
(modelled as `Except.error`) propagates when a consulted parent is
`None`. -/
def linenoChain (node : PyNode) : Except Unit (Option Nat) :=
  if truthyLine node.line then Except.ok node.line
  else
    match node.parent with
    | none => Except.error ()
    | some p =>
      if truthyLine p.line then Except.ok p.line
      else
        match p.parent with
        | none => Except.error ()
        | some pp => Except.ok pp.line

/-- The block search of `set_location` (source lines 74-77): walk up from
the node until a `TextElement` is reached; `none` when the ancestor chain
ends first. -/
def findBlock : PyNode → Option PyNode
  | .mk l te rs none => if te then some (.mk l te rs none) else none
  | .mk l te rs (some p) => if te then some (.mk l te rs (some p)) else findBlock p

/-- The line scan of `set_location` (source lines 79-86): for every line
of the block's raw source, in order and without a break, a line containing
the target overwrites the column fields with the 1-based bounds of the
first occurrence and offsets the line number by that line's index.  State
is `(lineno, start_col, end_col)`. -/
def locLoop (target : List Char) :
    List (List Char) → Nat → Option Nat × Option Nat × Option Nat →
    Option Nat × Option Nat × Option Nat
  | [], _, st => st
  | line :: rest, i, (l, s, e) =>
    match firstIndexOf line target with
    | some idx =>
      locLoop target rest (i + 1)
        (l.map (fun x => x + i), some (idx + 1), some (idx + 1 + target.length))
    | none => locLoop target rest (i + 1) (l, s, e)

/-- Embedding of `ValidationErrorMessage.set_location` (source lines
66-86): resolve the starting line from the two-level ancestor lookup
(propagating its `AttributeError`), then, when a `TextElement` ancestor
exists, scan its raw source lines for the target text; the result is the
`(lineno, start_col, end_col)` state, columns staying `none` when the
target is never found or no block exists. -/
def set_location (node : PyNode) (target : List Char) :
    Except Unit (Option Nat × Option Nat × Option Nat) :=
  match linenoChain node with
  | Except.error e => Except.error e
  | Except.ok l0 =>
    match findBlock node with
    | none => Except.ok (l0, none, none)
    | some blk => Except.ok (locLoop target (splitlines blk.rawsource) 0 (l0, none, none))

/-- C1: for every node text whose display column width equals its
character length (pure narrow-width text), `validate_punctuation_mark`
and `validate_question_exclamation` return no diagnostics. -/
theorem C1_narrow_width_gate (text : List Char) (h : columnWidth text = text.length) :
    validate_punctuation_mark text = [] ∧ validate_question_exclamation text = [] := by
  constructor
  · unfold validate_punctuation_mark
    by_cases he : text = []
    · simp [he]
    · simp [he, h]
  · unfold validate_question_exclamation qeCorrected
    simp [h]

/-- Witness for C1 at a concrete narrow-width input that contains the
ASCII punctuation the gated rules would otherwise rewrite. -/
theorem C1_witness :
    columnWidth ((r"abc, def.").toList) = ((r"abc, def.").toList).length ∧
    validate_punctuation_mark ((r"abc, def.").toList) = [] ∧
    validate_question_exclamation ((r"abc, def.").toList) = [] :=
  ⟨by decide, (C1_narrow_width_gate _ (by decide)).1, (C1_narrow_width_gate _ (by decide)).2⟩

/-- C5: `validate_half_width_katakana` computes the category-gated NFKC
transform of the text and emits exactly one whole-text diagnostic
(original versus normalized) precisely when the transform changes the
text; on input `ｱｲｳ` the one diagnostic suggests the NFKC full-width
equivalent `アイウ`. -/
theorem C5_half_width_katakana (text : List Char) :
    validate_half_width_katakana text =
      (if gatedNFKC text = text then []
       else [⟨ErrType.halfWidthKatakana, text, gatedNFKC text⟩]) ∧
    (text = (r"ｱｲｳ").toList →
      validate_half_width_katakana text =
        [⟨ErrType.halfWidthKatakana, (r"ｱｲｳ").toList, (r"アイウ").toList⟩]) := by
  constructor
  · unfold validate_half_width_katakana
    by_cases hg : gatedNFKC text = text
    · simp [hg]
    · have hg' : ¬text = gatedNFKC text := fun h => hg h.symm
      simp [hg, hg']
  · intro h
    subst h
    decide

/-- Witness for C5 at the half-width-katakana input of the claim. -/
theorem C5_witness :
    validate_half_width_katakana ((r"ｱｲｳ").toList) =
      [⟨ErrType.halfWidthKatakana, (r"ｱｲｳ").toList, (r"アイウ").toList⟩] :=
  (C5_half_width_katakana _).2 rfl

/-- C6: `validate_question_exclamation` emits at most one diagnostic per
node, whose target is the entire original text and whose suggestion is
the entire corrected text, even when several distinct wide-script runs
followed by marks are rewritten (as in the two-run input `あ!い?`). -/
theorem C6_qe_single_diagnostic (text : List Char) :
    (validate_question_exclamation text).length ≤ 1 ∧
    (∀ m ∈ validate_question_exclamation text,
      m.target_text = text ∧ m.suggestion_text = qeCorrected text) ∧
    (text = (r"あ!い?").toList →
      validate_question_exclamation text =
        [⟨ErrType.questionExclamation, (r"あ!い?").toList, (r"あ！い？").toList⟩]) := by
  refine ⟨?_, ?_, ?_⟩
  · unfold validate_question_exclamation
    split <;> simp
  · intro m hm
    unfold validate_question_exclamation at hm
    split at hm <;> simp_all
  · intro h
    subst h
    decide

/-- Witness for C6 at an input with two rewritten runs. -/
theorem C6_witness :
    validate_question_exclamation ((r"あ!い?").toList) =
      [⟨ErrType.questionExclamation, (r"あ!い?").toList, (r"あ！い？").toList⟩] :=
  (C6_qe_single_diagnostic _).2.2 rfl

/-- Concatenation distributes over the category-gated NFKC transform. -/
theorem gatedNFKC_append (a b : List Char) :
    gatedNFKC (a ++ b) = gatedNFKC a ++ gatedNFKC b := by
  induction a with
  | nil => rfl
  | cons c t ih => simp [gatedNFKC, ih]

/-- Every character produced by the single-character NFKC model is left
unchanged by a second pass of the gated transform. -/
theorem nfkcChar_fixed (c : Char) : gatedNFKC (nfkcChar c) = nfkcChar c := by
  by_cases h1 : c = 'ｱ'
  · subst h1; decide
  by_cases h2 : c = 'ｲ'
  · subst h2; decide
  by_cases h3 : c = 'ｳ'
  · subst h3; decide
  by_cases h4 : c = 'ｴ'
  · subst h4; decide
  by_cases h5 : c = 'ｵ'
  · subst h5; decide
  by_cases h6 : c = 'Ａ'
  · subst h6; decide
  by_cases h7 : c = '１'
  · subst h7; decide
  have hd : nfkcChar c = [c] := by simp [nfkcChar, h1, h2, h3, h4, h5, h6, h7]
  rw [hd]
  have hs : gatedStep c = [c] := by
    unfold gatedStep
    split
    · exact hd
    · rfl
  simp [gatedNFKC, hs]

/-- The per-character step is a fixed point of the whole transform. -/
theorem gatedStep_fixed (c : Char) : gatedNFKC (gatedStep c) = gatedStep c := by
  unfold gatedStep
  split
  · exact nfkcChar_fixed c
  · next h => simp [gatedNFKC, gatedStep, h]

/-- C8: the category-gated NFKC transform underlying
`validate_half_width_katakana` is idempotent: applying it twice yields
the same string as applying it once, for every input. -/
theorem C8_gated_nfkc_idempotent (text : List Char) :
    gatedNFKC (gatedNFKC text) = gatedNFKC text := by
  induction text with
  | nil => rfl
  | cons c t ih => simp [gatedNFKC, gatedNFKC_append, gatedStep_fixed, ih]

/-- The parenthesis loop emits exactly one diagnostic per captured term
whose display width differs from its character length. -/
theorem parenLoop_length (terms : List (List Char)) :
    ∀ text, (parenLoop terms text).length =
      (terms.filter (fun t => decide (columnWidth t ≠ t.length))).length := by
  induction terms with
  | nil => intro text; rfl
  | cons t rest ih =>
    intro text
    by_cases h : columnWidth t ≠ t.length
    · simp [parenLoop, h, List.filter_cons, ih]
    · simp [parenLoop, h, List.filter_cons, ih]

/-- Every diagnostic of the parenthesis loop records a working text and
that same text with some qualifying span `(term)` replaced by
`（term）`. -/
theorem parenLoop_mem (terms : List (List Char)) :
    ∀ text m, m ∈ parenLoop terms text →
      m.error_type = ErrType.parenthesis ∧
      ∃ term ∈ terms, columnWidth term ≠ term.length ∧
        m.suggestion_text =
          replaceAll m.target_text ('(' :: term ++ [')']) ('（' :: term ++ ['）']) := by
  induction terms with
  | nil => intro text m hm; simp [parenLoop] at hm
  | cons t rest ih =>
    intro text m hm
    by_cases h : columnWidth t ≠ t.length
    · rw [parenLoop, if_pos h] at hm
      rcases List.mem_cons.mp hm with hm | hm
      · subst hm
        exact ⟨rfl, t, List.mem_cons_self t rest, h, rfl⟩
      · obtain ⟨he, term, hmem, hw, hs⟩ := ih _ m hm
        exact ⟨he, term, List.mem_cons_of_mem t hmem, hw, hs⟩
    · rw [parenLoop, if_neg h] at hm
      obtain ⟨he, term, hmem, hw, hs⟩ := ih _ m hm
      exact ⟨he, term, List.mem_cons_of_mem t hmem, hw, hs⟩

/-- C2: `validate_parenthesis` emits one diagnostic per captured
half-width parenthesized span whose inner string's display width differs
from its character length; each diagnostic records a text and that text
with `(inner)` replaced by the fullwidth-paren `（inner）`; on input
`foo(あ)bar` exactly one diagnostic is emitted and the corrected form is
`foo（あ）bar`. -/
theorem C2_parenthesis (text : List Char) :
    (validate_parenthesis text).length =
      ((find_parethesis text).filter (fun t => decide (columnWidth t ≠ t.length))).length ∧
    (∀ m ∈ validate_parenthesis text,
      m.error_type = ErrType.parenthesis ∧
      ∃ term ∈ find_parethesis text, columnWidth term ≠ term.length ∧
        m.suggestion_text =
          replaceAll m.target_text ('(' :: term ++ [')']) ('（' :: term ++ ['）'])) ∧
    (text = (r"foo(あ)bar").toList →
      validate_parenthesis text =
        [⟨ErrType.parenthesis, (r"foo(あ)bar").toList, (r"foo（あ）bar").toList⟩]) := by
  refine ⟨parenLoop_length _ _, fun m hm => parenLoop_mem _ _ m hm, ?_⟩
  intro h
  subst h
  decide

/-- Witness for C2 at the input of the claim. -/
theorem C2_witness :
    validate_parenthesis ((r"foo(あ)bar").toList) =
      [⟨ErrType.parenthesis, (r"foo(あ)bar").toList, (r"foo（あ）bar").toList⟩] :=
  (C2_parenthesis _).2.2 rfl

/-- The NG-word loop emits exactly one diagnostic per rule whose finder
matches the text. -/
theorem ngLoop_length (rules : List NGWordRule) (text : List Char) :
    (ngLoop rules text).length =
      (rules.filter (fun rule => (rule.finder text).isSome)).length := by
  induction rules with
  | nil => rfl
  | cons rule rest ih =>
    cases hf : rule.finder text <;> simp [ngLoop, hf, List.filter_cons, ih]

/-- Every diagnostic of the NG-word loop comes from a rule of the list,
with target the matched substring and suggestion the rule's recorded
suggestion. -/
theorem ngLoop_mem (rules : List NGWordRule) (text : List Char) :
    ∀ m ∈ ngLoop rules text,
      m.error_type = ErrType.ngWord ∧
      ∃ rule ∈ rules, rule.finder text = some m.target_text ∧
        m.suggestion_text = rule.good := by
  induction rules with
  | nil => intro m hm; simp [ngLoop] at hm
  | cons rule rest ih =>
    intro m hm
    cases hf : rule.finder text with
    | none =>
      rw [ngLoop, hf] at hm
      obtain ⟨he, r, hr, hfind, hs⟩ := ih m hm
      exact ⟨he, r, List.mem_cons_of_mem rule hr, hfind, hs⟩
    | some found =>
      rw [ngLoop, hf] at hm
      rcases List.mem_cons.mp hm with hm | hm
      · subst hm
        exact ⟨rfl, rule, List.mem_cons_self rule rest, hf, rfl⟩
      · obtain ⟨he, r, hr, hfind, hs⟩ := ih m hm
        exact ⟨he, r, List.mem_cons_of_mem rule hr, hfind, hs⟩

/-- The dictionary content of the claim's example: the single line
`だ。|である。<TAB>ですます調へ`. -/
def demoDic : List Char :=
  (r"だ。|である。").toList ++ '\t' :: (r"ですます調へ").toList ++ ['\n']

/-- The rule set obtained by loading `demoDic`. -/
def demoRules : List NGWordRule :=
  (load_ng_word_dic (fun _ => some demoDic) compileAlt none).toOption.getD []

/-- C3: for every non-empty text, `validate_ng_words` emits exactly one
diagnostic per loaded rule whose pattern matches, with target the matched
substring and suggestion the rule's recorded suggestion; with the single
dictionary entry `だ。|である。<TAB>ですます調へ` loaded, the input
`これはペンだ。` produces exactly one diagnostic, with target the first
match `だ。` and suggestion `ですます調へ`. -/
theorem C3_ng_words (rules : List NGWordRule) (text : List Char) (h : text ≠ []) :
    (validate_ng_words rules text).length =
      (rules.filter (fun rule => (rule.finder text).isSome)).length ∧
    (∀ m ∈ validate_ng_words rules text,
      m.error_type = ErrType.ngWord ∧
      ∃ rule ∈ rules, rule.finder text = some m.target_text ∧
        m.suggestion_text = rule.good) ∧
    (rules = demoRules ∧ text = (r"これはペンだ。").toList →
      validate_ng_words rules text =
        [⟨ErrType.ngWord, (r"だ。").toList, (r"ですます調へ").toList⟩]) := by
  refine ⟨?_, ?_, ?_⟩
  · unfold validate_ng_words
    rw [if_neg h]
    exact ngLoop_length rules text
  · intro m hm
    unfold validate_ng_words at hm
    rw [if_neg h] at hm
    exact ngLoop_mem rules text m hm
  · rintro ⟨h1, h2⟩
    subst h1
    subst h2
    decide

/-- Witness for C3 at the dictionary entry and input of the claim. -/
theorem C3_witness :
    validate_ng_words demoRules ((r"これはペンだ。").toList) =
      [⟨ErrType.ngWord, (r"だ。").toList, (r"ですます調へ").toList⟩] :=
  (C3_ng_words demoRules _ (by decide)).2.2 ⟨rfl, rfl⟩

/-- C4: `load_ng_word_dic` propagates a file-access error when the
resolved path cannot be read (it never silently yields an empty rule
set), while a readable file whose every line is blank, comment-prefixed
or tab-free loads as the empty rule set without error. -/
theorem C4_loader_errors (fs : List Char → Option (List Char))
    (compile : List Char → Except Unit (List Char → Option (List Char)))
    (arg : Option (List Char)) :
    (fs (arg.getD defaultRuleFile) = none →
      load_ng_word_dic fs compile arg = Except.error LoadError.fileAccess) ∧
    (∀ content, fs (arg.getD defaultRuleFile) = some content →
      (∀ line ∈ fileLines content, line = [] ∨ line.head? = some '#' ∨ '\t' ∉ line) →
      load_ng_word_dic fs compile arg = Except.ok []) := by
  constructor
  · intro h
    unfold load_ng_word_dic
    simp only [h]
  · intro content hc hlines
    unfold load_ng_word_dic
    simp only [hc]
    have hnil : (fileLines content).filterMap (fun line =>
        if line ≠ [] ∧ line.head? ≠ some '#' ∧ '\t' ∈ line then
          some (line.takeWhile (fun c => decide (c ≠ '\t')),
                (line.dropWhile (fun c => decide (c ≠ '\t'))).tail)
        else none) = [] := by
      rw [List.filterMap_eq_nil_iff]
      intro line hl
      rcases hlines line hl with h | h | h
      · simp [h]
      · simp [h]
      · simp [h]
    rw [hnil]
    rfl

/-- A file system without the dictionary file. -/
def fsMissing : List Char → Option (List Char) :=
  fun _ => none

/-- A file system whose dictionary file holds only a comment line, a
blank line and a tab-free line. -/
def fsComments : List Char → Option (List Char) :=
  fun _ => some ((r"# comment").toList ++ '\n' :: '\n' :: (r"no tab here").toList ++ ['\n'])

/-- Witness for C4: the missing file propagates the file-access error and
the comment-only file loads as the empty rule set. -/
theorem C4_witness :
    load_ng_word_dic fsMissing compileAlt none = Except.error LoadError.fileAccess ∧
    load_ng_word_dic fsComments compileAlt none = Except.ok [] :=
  ⟨(C4_loader_errors fsMissing compileAlt none).1 rfl,
   (C4_loader_errors fsComments compileAlt none).2 _ rfl (by decide)⟩

/-- The number/unit loop emits exactly one diagnostic per match whose
lower-cased unit token differs from `html`. -/
theorem numLoop_length (elems : List (List Char × List Char × List Char)) :
    (numLoop elems).length =
      (elems.filter (fun e => decide (lowerAscii e.2.2 ≠ (r"html").toList))).length := by
  induction elems with
  | nil => rfl
  | cons e rest ih =>
    obtain ⟨a, b, c⟩ := e
    by_cases h : lowerAscii c ≠ (r"html").toList
    · rw [numLoop, if_pos h, List.filter_cons, if_pos (decide_eq_true h)]
      simp [ih]
    · rw [numLoop, if_neg h, List.filter_cons,
          if_neg (fun hc => h (of_decide_eq_true hc))]
      exact ih

/-- Every diagnostic of the number/unit loop comes from a non-`html`
match, with target the concatenation of the three captured groups and
suggestion the fixed instructional message. -/
theorem numLoop_mem (elems : List (List Char × List Char × List Char)) :
    ∀ m ∈ numLoop elems,
      m.error_type = ErrType.spaceInNumberOfUnit ∧
      m.suggestion_text = numUnitSuggestion ∧
      ∃ e ∈ elems, lowerAscii e.2.2 ≠ (r"html").toList ∧
        m.target_text = e.1 ++ e.2.1 ++ e.2.2 := by
  induction elems with
  | nil => intro m hm; simp [numLoop] at hm
  | cons e rest ih =>
    obtain ⟨a, b, c⟩ := e
    intro m hm
    by_cases h : lowerAscii c ≠ (r"html").toList
    · rw [numLoop, if_pos h] at hm
      rcases List.mem_cons.mp hm with hm | hm
      · subst hm
        exact ⟨rfl, rfl, (a, b, c), List.mem_cons_self _ rest, h, rfl⟩
      · obtain ⟨he, hs, f, hf, hw, ht⟩ := ih m hm
        exact ⟨he, hs, f, List.mem_cons_of_mem _ hf, hw, ht⟩
    · rw [numLoop, if_neg h] at hm
      obtain ⟨he, hs, f, hf, hw, ht⟩ := ih m hm
      exact ⟨he, hs, f, List.mem_cons_of_mem _ hf, hw, ht⟩

/-- C7: a match of the number/unit pattern whose unit token, lower-cased,
равals `html` never produces a diagnostic; every other match produces one
whose target concatenates the three captured groups and whose suggestion
is the fixed instructional message; concretely, ` 12html,` yields no
diagnostic while ` 12cm ` yields exactly one. -/
theorem C7_number_unit (text : List Char) :
    (validate_space_in_number_of_unit text).length =
      ((find_numofunit text).filter
        (fun e => decide (lowerAscii e.2.2 ≠ (r"html").toList))).length ∧
    (∀ m ∈ validate_space_in_number_of_unit text,
      m.error_type = ErrType.spaceInNumberOfUnit ∧
      m.suggestion_text = numUnitSuggestion ∧
      ∃ e ∈ find_numofunit text, lowerAscii e.2.2 ≠ (r"html").toList ∧
        m.target_text = e.1 ++ e.2.1 ++ e.2.2) ∧
    (text = (r" 12html,").toList → validate_space_in_number_of_unit text = []) ∧
    (text = (r" 12cm ").toList →
      validate_space_in_number_of_unit text =
        [⟨ErrType.spaceInNumberOfUnit, (r" 12cm").toList, numUnitSuggestion⟩]) := by
  refine ⟨?_, ?_, ?_, ?_⟩
  · unfold validate_space_in_number_of_unit
    by_cases h : text = []
    · subst h; rfl
    · rw [if_neg h]
      exact numLoop_length _
  · intro m hm
    unfold validate_space_in_number_of_unit at hm
    by_cases h : text = []
    · subst h; simp at hm
    · rw [if_neg h] at hm
      exact numLoop_mem _ m hm
  · intro h; subst h; decide
  · intro h; subst h; decide

/-- Witness for C7 at the exempted and non-exempted inputs. -/
theorem C7_witness :
    validate_space_in_number_of_unit ((r" 12html,").toList) = [] ∧
    validate_space_in_number_of_unit ((r" 12cm ").toList) =
      [⟨ErrType.spaceInNumberOfUnit, (r" 12cm").toList, numUnitSuggestion⟩] :=
  ⟨(C7_number_unit _).2.2.1 rfl, (C7_number_unit _).2.2.2 rfl⟩

/-- A detached node: no line number of its own and no parent. -/
def detachedNode : PyNode :=
  PyNode.mk none false [] none

/-- C9 counterexample: `set_location` can raise.  On a node whose own
`line` is `None` and whose `parent` is `None`, the lookup
`node.line or node.parent.line or ...` evaluates `None.line` and an
`AttributeError` propagates, so location resolution is not raise-free as
claimed. -/
theorem C9_counterexample : set_location detachedNode [] = Except.error () := rfl

/-- When no line of the block contains the target, the location scan
leaves its state untouched. -/
theorem locLoop_no_match (target : List Char) (lines : List (List Char))
    (h : ∀ line ∈ lines, firstIndexOf line target = none) :
    ∀ i st, locLoop target lines i st = st := by
  induction lines with
  | nil => intro i st; rfl
  | cons line rest ih =>
    intro i st
    obtain ⟨a, b, c⟩ := st
    rw [locLoop, h line (List.mem_cons_self line rest)]
    exact ih (fun l hl => h l (List.mem_cons_of_mem line hl)) (i + 1) (a, b, c)

/-- C9 amended: whenever the two-level line lookup
(`node.line or node.parent.line or node.parent.parent.line`) succeeds,
`set_location` never raises; and if the target text is not found in any
raw-source line of the enclosing text-element block (or no such block
exists), the diagnostic keeps the looked-up line with both column fields
left unset, rather than raising. -/
theorem C9_amended (node : PyNode) (target : List Char) (l0 : Option Nat)
    (h : linenoChain node = Except.ok l0) :
    (∃ st, set_location node target = Except.ok st) ∧
    ((∀ line ∈ splitlines (((findBlock node).map PyNode.rawsource).getD []),
        firstIndexOf line target = none) →
      set_location node target = Except.ok (l0, none, none)) := by
  unfold set_location
  rw [h]
  cases hb : findBlock node with
  | none => exact ⟨⟨(l0, none, none), rfl⟩, fun _ => rfl⟩
  | some blk =>
    refine ⟨⟨_, rfl⟩, ?_⟩
    intro hnone
    simp only [Option.map_some', Option.getD_some] at hnone
    show Except.ok (locLoop target (splitlines blk.rawsource) 0 (l0, none, none)) =
      Except.ok (l0, none, none)
    rw [locLoop_no_match target (splitlines blk.rawsource) hnone 0 (l0, none, none)]

/-- A paragraph-like node carrying its own line and raw source. -/
def blockNode : PyNode :=
  PyNode.mk (some 2) true ((r"hello").toList) none

/-- Witness for C9 amended: the lookup succeeds on `blockNode` and a
target absent from the raw source leaves the columns unset without an
error. -/
theorem C9_witness :
    set_location blockNode ((r"zzz").toList) = Except.ok (some 2, none, none) :=
  (C9_amended blockNode _ (some 2) rfl).2 (by decide)

/-- C10: the module global `NG_WORDS` is updated atomically by
`load_ng_word_dic`: a propagating error (missing file or pattern-compile
failure) leaves the previous rule set in place, and the new rule set
replaces it exactly when the whole file has been read and every pattern
compiled. -/
theorem C10_atomic_reload (old : List NGWordRule)
    (fs : List Char → Option (List Char))
    (compile : List Char → Except Unit (List Char → Option (List Char)))
    (arg : Option (List Char)) :
    (∀ e, load_ng_word_dic fs compile arg = Except.error e →
      NG_WORDS_after old fs compile arg = old) ∧
    (∀ rules, load_ng_word_dic fs compile arg = Except.ok rules →
      NG_WORDS_after old fs compile arg = rules) := by
  constructor
  · intro e he
    unfold NG_WORDS_after
    rw [he]
  · intro rules hr
    unfold NG_WORDS_after
    rw [hr]

/-- A file system whose dictionary file has one well-formed line. -/
def fsTab : List Char → Option (List Char) :=
  fun _ => some ((r"ab").toList ++ '\t' :: (r"cd").toList ++ ['\n'])

/-- A pattern compiler that always fails, modelling an `re.error`. -/
def compileFail : List Char → Except Unit (List Char → Option (List Char)) :=
  fun _ => Except.error ()

/-- A non-empty previous rule set. -/
def oldRules : List NGWordRule :=
  [⟨fun _ => none, (r"old").toList, (r"old").toList⟩]

/-- Witness for C10: a missing file and a failing pattern compilation
both leave the previous rule set untouched, while a successful load of a
rule-free file replaces it with the empty set. -/
theorem C10_witness :
    NG_WORDS_after oldRules fsMissing compileAlt none = oldRules ∧
    NG_WORDS_after oldRules fsTab compileFail none = oldRules ∧
    NG_WORDS_after oldRules fsComments compileAlt none = [] :=
  ⟨(C10_atomic_reload oldRules fsMissing compileAlt none).1 LoadError.fileAccess rfl,
   (C10_atomic_reload oldRules fsTab compileFail none).1 LoadError.regexCompile rfl,
   (C10_atomic_reload oldRules fsComments compileAlt none).2 [] rfl⟩
